import Mathlib

/-!
Shallow embedding of the voice-session orchestration pipeline of the
Eleni Shepherd backend, and proofs about the claims of its specification.

Sources embedded:
- SpeechToTextService.detectVoiceActivity (speech-to-text.service.ts)
- AudioProcessingService (audio-processing.service.ts): processAudioChunk,
  setAlwaysListening, tapToListen, stopAudioPlayback, cleanup
- ConversationService (conversation.service.ts): initializeSession, getSession,
  addContext, processMessage, setInterrupted, endSession, clearHistory
- ConversationalAiGateway.streamAudioResponse (conversational-ai.gateway part
  of conversation.service.ts)

Modelling conventions:
- Node Buffers are lists of bytes (List Nat, each entry < 256 where relevant).
- Timestamps (Date.now, Date objects) are natural numbers, passed explicitly
  to each operation; JS subtraction that could go negative is noted where used.
- The external STT/LLM providers are oracles passed as function parameters;
  a provider call that throws is an oracle returning Except.error.
- The per-session Maps of the services are functions String to Option.
- JS float arithmetic in the VAD is replaced by exact integer arithmetic via
  an equivalence spelled out at the definition.
-/

namespace Eleni


/-- Functional update of a string-keyed map, modelling Map.set. -/
def mapSet {α : Type} (m : String → Option α) (k : String) (v : α) :
    String → Option α :=
  fun k2 => if k2 = k then some v else m k2

/-- Deletion in a string-keyed map, modelling Map.delete. -/
def mapDel {α : Type} (m : String → Option α) (k : String) :
    String → Option α :=
  fun k2 => if k2 = k then none else m k2

/-! ## Transcription gateway: voice-activity detection

From SpeechToTextService.detectVoiceActivity.  The source reads signed 16-bit
little-endian samples, sums their squares over `for (i = 0; i < length - 1;
i += 2)`, computes `rms = sqrt(sum / (length / 2))` and returns
`rms > threshold`.  For a nonnegative threshold this is equivalent to the
exact integer comparison `2 * sum > threshold^2 * length`, which is what the
executable embedding uses; the square-root formulation is recovered in the
theorem for claim C9. -/

/-- Signed 16-bit little-endian read of two bytes, as in Buffer.readInt16LE. -/
def readInt16LE (b0 b1 : Nat) : Int :=
  let u : Nat := b0 % 256 + 256 * (b1 % 256)
  if u < 32768 then (u : Int) else (u : Int) - 65536

/-- Sum of squared 16-bit samples over consecutive byte pairs; a trailing odd
byte is ignored, matching the loop bound `i < length - 1`. -/
def energySum : List Nat → Int
  | b0 :: b1 :: rest => readInt16LE b0 b1 ^ 2 + energySum rest
  | _ => 0

/-- SpeechToTextService.detectVoiceActivity: buffers shorter than 2 bytes are
no voice; otherwise voice iff the RMS energy exceeds the threshold
(default 500), expressed sqrt-free as `2 * energySum > threshold^2 * length`. -/
def detectVoiceActivity (audioBuffer : List Nat) (threshold : Nat := 500) :
    Bool :=
  if audioBuffer.length < 2 then false
  else decide ((2 : Int) * energySum audioBuffer
    > (threshold : Int) ^ 2 * (audioBuffer.length : Int))

/-! ## Audio session buffer (AudioProcessingService) -/

/-- The per-session audio buffer entry (audio-buffer.interface.ts). -/
structure AudioBuffer where
  sessionId : String
  chunks : List (List Nat)
  totalBytes : Nat
  lastChunkTime : Nat
  deriving DecidableEq

/-- The per-session listen settings record of AudioProcessingService. -/
structure ListenSettings where
  alwaysListen : Bool
  awake : Bool
  tapToListenExpiresAt : Option Nat
  deriving DecidableEq

/-- Default settings object created on lookup miss:
`{ alwaysListen: false, awake: false }`. -/
def defaultSettings : ListenSettings := ⟨false, false, none⟩

/-- State of AudioProcessingService: the audioBuffers map and the
sessionSettings map. -/
structure AudioProcessingState where
  audioBuffers : String → Option AudioBuffer
  sessionSettings : String → Option ListenSettings

/-- The value returned by processAudioChunk: `{ transcript?, isFinal }`. -/
structure ChunkResult where
  transcript : Option String
  isFinal : Bool
  deriving DecidableEq

/-- The external speech-to-text calls made by AudioProcessingService, as
oracles; an Except.error models the provider call throwing. -/
structure SttEnv where
  detectWakeWord : List Nat → Except String Bool
  transcribeAudio : List Nat → Except String String

/-- The two config constants of AudioProcessingService.  The constructor
computes them as `configService.get(...) || default`; see configOr. -/
structure AudioConfig where
  silenceThresholdMs : Nat
  minAudioLengthBytes : Nat

/-- JS `configService.get(...) || default`: undefined and 0 both fall back to
the default, so the resulting constant is never 0 when the default is not. -/
def configOr (v : Option Nat) (d : Nat) : Nat :=
  match v with
  | none => d
  | some n => if n = 0 then d else n

/-- The config defaults: AI_SILENCE_THRESHOLD_MS falls back to 1500,
AI_MIN_AUDIO_LENGTH_BYTES to 8000. -/
def defaultConfig (silCfg minCfg : Option Nat) : AudioConfig :=
  ⟨configOr silCfg 1500, configOr minCfg 8000⟩

/-- AudioProcessingService.processAudioChunk.  Direct translation:
lazily create the buffer entry, run VAD; on voice append the chunk and (in
always-listen mode, before awake, once a quarter of the minimum utterance
length accumulated) run the wake-word probe inside a try/catch that degrades
any failure to a non-final result; on silence test the utterance-boundary
condition, clear the buffer, apply the always-listen suppression gate, and
otherwise transcribe and return a final result.  The comparison
`totalBytes >= MIN_AUDIO_LENGTH_BYTES / 4` (JS float division) is embedded
exactly as `MIN <= 4 * totalBytes`.  `silenceDuration = now - lastChunkTime`
uses truncated Nat subtraction; a negative JS difference and a truncated-to-0
one compare identically against a positive threshold. -/
def processAudioChunk (cfg : AudioConfig) (stt : SttEnv)
    (st : AudioProcessingState) (sessionId : String) (audioChunk : List Nat)
    (now : Nat) : Except String (ChunkResult × AudioProcessingState) :=
  let buffer := (st.audioBuffers sessionId).getD
    ⟨sessionId, [], 0, now⟩
  let st1 : AudioProcessingState :=
    { st with audioBuffers := mapSet st.audioBuffers sessionId buffer }
  let hasVoice := detectVoiceActivity audioChunk
  let settings := (st1.sessionSettings sessionId).getD defaultSettings
  if hasVoice then
    let buffer2 : AudioBuffer :=
      { buffer with
        chunks := buffer.chunks ++ [audioChunk]
        totalBytes := buffer.totalBytes + audioChunk.length
        lastChunkTime := now }
    let st2 : AudioProcessingState :=
      { st1 with audioBuffers := mapSet st1.audioBuffers sessionId buffer2 }
    if settings.alwaysListen = true ∧ settings.awake = false ∧
        cfg.minAudioLengthBytes ≤ 4 * buffer2.totalBytes then
      let candidate := buffer2.chunks.flatten
      match stt.detectWakeWord candidate with
      | .error _ =>
        -- caught by the inner catch, logged; falls through to the
        -- non-final returns below (identical for tapActive true and false)
        .ok (⟨none, false⟩, st2)
      | .ok false => .ok (⟨none, false⟩, st2)
      | .ok true =>
        let settings2 : ListenSettings := { settings with awake := true }
        let st3 : AudioProcessingState :=
          { st2 with
            sessionSettings := mapSet st2.sessionSettings sessionId settings2 }
        match stt.transcribeAudio candidate with
        | .error _ =>
          -- transcription failure inside the same try/catch: buffer kept
          .ok (⟨none, false⟩, st3)
        | .ok transcript =>
          let st4 : AudioProcessingState :=
            { st3 with audioBuffers := mapDel st3.audioBuffers sessionId }
          .ok (⟨some transcript, true⟩, st4)
    else .ok (⟨none, false⟩, st2)
  else
    let silenceDuration := now - buffer.lastChunkTime
    if 0 < buffer.chunks.length ∧
        cfg.minAudioLengthBytes ≤ buffer.totalBytes ∧
        cfg.silenceThresholdMs ≤ silenceDuration then
      let completeAudio := buffer.chunks.flatten
      let st2 : AudioProcessingState :=
        { st1 with audioBuffers := mapDel st1.audioBuffers sessionId }
      let currentSettings := (st2.sessionSettings sessionId).getD
        defaultSettings
      if currentSettings.alwaysListen = true ∧ currentSettings.awake = false ∧
          ¬ (now < currentSettings.tapToListenExpiresAt.getD 0) then
        .ok (⟨none, false⟩, st2)
      else
        match stt.transcribeAudio completeAudio with
        | .error e => .error e  -- the outer catch logs and rethrows
        | .ok transcript =>
          let cleared : ListenSettings := { currentSettings with awake := false }
          let st3 : AudioProcessingState :=
            if currentSettings.awake = true then
              { st2 with
                sessionSettings := mapSet st2.sessionSettings sessionId cleared }
            else st2
          .ok (⟨some transcript, true⟩, st3)
    else .ok (⟨none, false⟩, st1)

/-- AudioProcessingService.setAlwaysListening: sets the flag; disabling also
clears awake. -/
def setAlwaysListening (st : AudioProcessingState) (sessionId : String)
    (enabled : Bool) : AudioProcessingState :=
  let settings := (st.sessionSettings sessionId).getD defaultSettings
  let settings2 : ListenSettings :=
    { settings with
      alwaysListen := enabled
      awake := if enabled then settings.awake else false }
  { st with sessionSettings := mapSet st.sessionSettings sessionId settings2 }

/-- AudioProcessingService.tapToListen: records tapToListenExpiresAt =
now + durationMs (default duration 10000 ms). -/
def tapToListen (st : AudioProcessingState) (sessionId : String) (now : Nat)
    (durationMs : Nat := 10000) : AudioProcessingState :=
  let settings := (st.sessionSettings sessionId).getD defaultSettings
  let settings2 : ListenSettings :=
    { settings with tapToListenExpiresAt := some (now + durationMs) }
  { st with sessionSettings := mapSet st.sessionSettings sessionId settings2 }

/-- AudioProcessingService.stopAudioPlayback: deletes the session's buffer. -/
def stopAudioPlayback (st : AudioProcessingState) (sessionId : String) :
    AudioProcessingState :=
  { st with audioBuffers := mapDel st.audioBuffers sessionId }

/-- AudioProcessingService.cleanup: deletes the session's buffer. -/
def cleanup (st : AudioProcessingState) (sessionId : String) :
    AudioProcessingState :=
  { st with audioBuffers := mapDel st.audioBuffers sessionId }

/-- Sequential submission of a list of (chunk, arrival time) pairs for one
session; stops at the first uncaught error, as the transport would. -/
def runAudioTrace (cfg : AudioConfig) (stt : SttEnv) (sessionId : String) :
    AudioProcessingState → List (List Nat × Nat) →
    Except String (List ChunkResult × AudioProcessingState)
  | st, [] => .ok ([], st)
  | st, (c, t) :: rest =>
    match processAudioChunk cfg stt st sessionId c t with
    | .error e => .error e
    | .ok (r, st2) =>
      match runAudioTrace cfg stt sessionId st2 rest with
      | .error e => .error e
      | .ok (rs, stF) => .ok (r :: rs, stF)

/-- Results list of a trace run, empty when the run raised. -/
def traceResults
    (x : Except String (List ChunkResult × AudioProcessingState)) :
    List ChunkResult :=
  match x with
  | .ok (rs, _) => rs
  | .error _ => []

/-- Buffer entry of the final state of a trace run. -/
def traceBuffer
    (x : Except String (List ChunkResult × AudioProcessingState))
    (sessionId : String) : Option AudioBuffer :=
  match x with
  | .ok (_, st) => st.audioBuffers sessionId
  | .error _ => none

/-- Settings entry of the final state of a trace run. -/
def traceSettings
    (x : Except String (List ChunkResult × AudioProcessingState))
    (sessionId : String) : Option ListenSettings :=
  match x with
  | .ok (_, st) => st.sessionSettings sessionId
  | .error _ => none

/-! ## Conversation session store (ConversationService) -/

/-- Message roles of the LLM message DTO. -/
inductive Role where
  | user
  | assistant
  | system
  deriving DecidableEq

/-- A chat message: role plus content. -/
structure Message where
  role : Role
  content : String
  deriving DecidableEq

/-- ConversationSession (conversation-session.interface.ts); Dates are
modelled as Nat timestamps and the optional Mongo user id as a string. -/
structure ConversationSession where
  sessionId : String
  userId : Option String
  messages : List Message
  context : String
  createdAt : Nat
  lastActivityAt : Nat
  interrupted : Bool
  deriving DecidableEq

/-- The payloads the conversation service puts into the data field of its
response envelope. -/
inductive AppData where
  | nullD
  | sessionD (s : ConversationSession)
  | processedD (response : String) (sessionId : String)
  | sessionsD (ss : List ConversationSession)
  deriving DecidableEq

/-- The uniform response envelope IAppResponse {success, message, data,
status} (response.interface.ts).  Note it has exactly these four fields; in
particular it has no interrupted field. -/
structure IAppResponse where
  success : Bool
  message : String
  data : AppData
  status : Option Nat
  deriving DecidableEq

/-- createAppResponse (libs/common/src/utils/response.ts). -/
def createAppResponse (success : Bool) (message : String)
    (data : AppData) (status : Option Nat) : IAppResponse :=
  ⟨success, message, data, status⟩

/-- The shared cache as seen by ConversationService: the session entries
(the cache key prefix conversation:session: is injective in sessionId, so the
map is keyed by sessionId directly) and the active-session id index stored at
conversation:active_sessions. -/
structure ConversationStore where
  sessions : String → Option ConversationSession
  activeSessions : List String

/-- ConversationService.addActiveSessionId: append the id to the index if not
already present. -/
def addActiveSessionId (store : ConversationStore) (sessionId : String) :
    ConversationStore :=
  if sessionId ∈ store.activeSessions then store
  else { store with activeSessions := store.activeSessions ++ [sessionId] }

/-- ConversationService.removeActiveSessionId: splice out the first
occurrence of the id, if any. -/
def removeActiveSessionId (store : ConversationStore) (sessionId : String) :
    ConversationStore :=
  { store with activeSessions := store.activeSessions.erase sessionId }

/-- ConversationService.initializeSession: build a fresh session, store it,
register it in the active index, answer 201. -/
def initializeSession (store : ConversationStore) (sessionId : String)
    (userId : Option String) (now : Nat) :
    IAppResponse × ConversationStore :=
  let session : ConversationSession :=
    ⟨sessionId, userId, [], "", now, now, false⟩
  let store2 : ConversationStore :=
    { store with sessions := mapSet store.sessions sessionId session }
  (createAppResponse true "Session created" (.sessionD session) (some 201),
    addActiveSessionId store2 sessionId)

/-- ConversationService.getSession: the session wrapped in the envelope, or
the 404 failure when absent (reviveSession is the identity here since Dates
are already plain values in the model). -/
def getSession (store : ConversationStore) (sessionId : String) :
    IAppResponse :=
  match store.sessions sessionId with
  | none => createAppResponse false "Session not found" .nullD (some 404)
  | some s => createAppResponse true "Session retrieved" (.sessionD s) (some 200)

/-- Shared shape of the per-session operations: each first calls getSession
and returns the failed envelope unchanged (leaving the store untouched) when
the session is absent; otherwise it proceeds on the session value. -/
def withSession (store : ConversationStore) (sessionId : String)
    (k : ConversationSession → IAppResponse × ConversationStore) :
    IAppResponse × ConversationStore :=
  match store.sessions sessionId with
  | none =>
    (createAppResponse false "Session not found" .nullD (some 404), store)
  | some s => k s

/-- ConversationService.addContext: replace the context, bump
lastActivityAt, persist. -/
def addContext (store : ConversationStore) (sessionId : String)
    (context : String) (now : Nat) : IAppResponse × ConversationStore :=
  withSession store sessionId fun session =>
    let session2 : ConversationSession :=
      { session with context := context, lastActivityAt := now }
    (createAppResponse true "Context added" (.sessionD session2) (some 200),
      { store with sessions := mapSet store.sessions sessionId session2 })

/-- ConversationService.processMessage.  The completion gateway (LlmService
.generateResponse) is the oracle llm, returning the reply text carried in the
data field of its envelope.  The user message is appended, lastActivityAt
bumped and interrupted cleared, the gateway called on the updated message
list plus context, the assistant reply appended, and the history trimmed to
the last 20 entries (slice(-20)) before persisting. -/
def processMessage (llm : List Message → String → String)
    (store : ConversationStore) (sessionId : String) (userMessage : String)
    (now : Nat) : IAppResponse × ConversationStore :=
  withSession store sessionId fun session =>
    let msgs1 := session.messages ++ [⟨Role.user, userMessage⟩]
    let aiResponse := llm msgs1 session.context
    let msgs2 := msgs1 ++ [⟨Role.assistant, aiResponse⟩]
    let msgs3 := if msgs2.length > 20 then msgs2.drop (msgs2.length - 20)
      else msgs2
    let session2 : ConversationSession :=
      { session with
        messages := msgs3
        lastActivityAt := now
        interrupted := false }
    (createAppResponse true "Message processed"
        (.processedD aiResponse sessionId) (some 200),
      { store with sessions := mapSet store.sessions sessionId session2 })

/-- ConversationService.setInterrupted: set the flag and persist.  The source
does not touch lastActivityAt here. -/
def setInterrupted (store : ConversationStore) (sessionId : String)
    (interrupted : Bool) : IAppResponse × ConversationStore :=
  withSession store sessionId fun session =>
    let session2 : ConversationSession := { session with interrupted }
    (createAppResponse true "Session interrupted flag updated"
        (.sessionD session2) (some 200),
      { store with sessions := mapSet store.sessions sessionId session2 })

/-- ConversationService.endSession: like every other per-session operation it
first calls getSession and returns the 404 failure when the session is
absent; otherwise it deletes the entry and removes the id from the active
index. -/
def endSession (store : ConversationStore) (sessionId : String) :
    IAppResponse × ConversationStore :=
  withSession store sessionId fun _ =>
    let store2 : ConversationStore :=
      { store with sessions := mapDel store.sessions sessionId }
    (createAppResponse true "Session ended" .nullD (some 200),
      removeActiveSessionId store2 sessionId)

/-- ConversationService.clearHistory: empty the messages, bump
lastActivityAt, keep the context, persist. -/
def clearHistory (store : ConversationStore) (sessionId : String) (now : Nat) :
    IAppResponse × ConversationStore :=
  withSession store sessionId fun session =>
    let session2 : ConversationSession :=
      { session with messages := [], lastActivityAt := now }
    (createAppResponse true "History cleared" (.sessionD session2) (some 200),
      { store with sessions := mapSet store.sessions sessionId session2 })

/-! ## Realtime delivery channel (ConversationalAiGateway) -/

/-- The break test of the synthesized-audio delivery loop.  The gateway code
reads `session?.interrupted` where session is the value returned by
getSession, i.e. the IAppResponse envelope {success, message, data, status}.
That record has no interrupted property, so in JS the access evaluates to
undefined, whose truthiness is false; the session's actual flag (inside
data) is never consulted. -/
def respInterrupted (_resp : IAppResponse) : Bool := false

/-- ConversationalAiGateway.streamAudioResponse, restricted to the chunk
delivery decision: for each synthesized audio chunk the loop fetches the
session envelope, breaks if respInterrupted, and otherwise emits the chunk.
The store is the one visible to the loop (held fixed; an interrupt that
already landed is represented by the session entry carrying
interrupted = true). -/
def streamAudioResponse (store : ConversationStore) (sessionId : String) :
    List (List Nat) → List (List Nat)
  | [] => []
  | c :: rest =>
    if respInterrupted (getSession store sessionId) then []
    else c :: streamAudioResponse store sessionId rest

/-- Concrete speech-to-text oracle for witnesses: no wake word, transcript
always "t". -/
def sttW : SttEnv := ⟨fun _ => .ok false, fun _ => .ok "t"⟩

/-- Concrete audio state for witnesses: one session "s" holding a single
2-byte voice chunk, no settings entry. -/
def stW : AudioProcessingState :=
  ⟨fun _ => some ⟨"s", [[255, 127]], 2, 0⟩, fun _ => none⟩

/-- A concrete session with the interrupted flag set. -/
def interruptedSession : ConversationSession :=
  ⟨"s1", none, [], "", 0, 0, true⟩

/-- A store holding only the interrupted session. -/
def storeC5 : ConversationStore :=
  ⟨mapSet (fun _ => none) "s1" interruptedSession, ["s1"]⟩

/-! ## Concrete sessions and stores used by witnesses and counterexamples -/

/-- The 404 failure envelope every per-session operation returns on an
absent session. -/
def notFoundResponse : IAppResponse :=
  createAppResponse false "Session not found" .nullD (some 404)

/-- A concrete conversation session used in lifecycle counterexamples. -/
def sessionC4 : ConversationSession := ⟨"s1", none, [], "", 0, 0, false⟩

/-- A store holding only sessionC4. -/
def storeC4 : ConversationStore :=
  ⟨mapSet (fun _ => none) "s1" sessionC4, ["s1"]⟩

/-- A session holding 19 user messages, for the trimming witness. -/
def sessionC6 : ConversationSession :=
  ⟨"s1", none, List.replicate 19 (Message.mk Role.user "m"), "", 0, 0, false⟩

/-- A store holding only sessionC6. -/
def storeC6 : ConversationStore :=
  ⟨mapSet (fun _ => none) "s1" sessionC6, ["s1"]⟩

/-- A session whose lastActivityAt is 5, for the C8 counterexample. -/
def sessionC8 : ConversationSession := ⟨"s1", none, [], "", 0, 5, false⟩

/-- A store holding only sessionC8. -/
def storeC8 : ConversationStore :=
  ⟨mapSet (fun _ => none) "s1" sessionC8, ["s1"]⟩

/-! ## Evaluation lemmas for processAudioChunk

Abbreviations for the state components processAudioChunk manipulates, used
to phrase its evaluation lemmas; each is proved equal to what the source
computes. -/

/-- The buffer processAudioChunk works on: the stored entry, or the lazily
created empty one. -/
def bufD (st : AudioProcessingState) (sessionId : String) (now : Nat) :
    AudioBuffer :=
  (st.audioBuffers sessionId).getD ⟨sessionId, [], 0, now⟩

/-- The buffer after a voice-active chunk is appended. -/
def pushChunk (b : AudioBuffer) (c : List Nat) (now : Nat) : AudioBuffer :=
  { b with
    chunks := b.chunks ++ [c]
    totalBytes := b.totalBytes + c.length
    lastChunkTime := now }

/-- The session's listen settings, defaulted as in the source lookup. -/
def settingsOf (st : AudioProcessingState) (sessionId : String) :
    ListenSettings :=
  (st.sessionSettings sessionId).getD defaultSettings

/-- The always-listen suppression gate tested at an utterance boundary:
waiting for a wake word and no unexpired tap window. -/
def suppressGate (st : AudioProcessingState) (sessionId : String)
    (now : Nat) : Prop :=
  (settingsOf st sessionId).alwaysListen = true ∧
    (settingsOf st sessionId).awake = false ∧
    ¬ (now < (settingsOf st sessionId).tapToListenExpiresAt.getD 0)

instance (st : AudioProcessingState) (sessionId : String) (now : Nat) :
    Decidable (suppressGate st sessionId now) := by
  unfold suppressGate
  infer_instance

/-- Concrete state for the C2 witness: one buffered voice chunk and an
always-listen, not-awake session with a tap window open until time 10. -/
def stwC2 : AudioProcessingState :=
  ⟨fun _ => some ⟨"s", [[255, 127]], 2, 0⟩,
    fun _ => some ⟨true, false, some 10⟩⟩

/-- Concrete state for the C7 witness: always-listen, not awake, nothing
buffered yet. -/
def stC7 : AudioProcessingState :=
  ⟨fun _ => none, fun _ => some ⟨true, false, none⟩⟩

/-- Result component of a processAudioChunk outcome. -/
def chunkOutcome (x : Except String (ChunkResult × AudioProcessingState)) :
    Option ChunkResult :=
  x.toOption.map Prod.fst

/-- State component of a processAudioChunk outcome. -/
def stateAfter (x : Except String (ChunkResult × AudioProcessingState)) :
    Option AudioProcessingState :=
  x.toOption.map Prod.snd

/-- Concrete state for the C3 counterexample: always-listen, not awake,
empty buffers. -/
def stC3 : AudioProcessingState :=
  ⟨fun _ => none, fun _ => some ⟨true, false, none⟩⟩

/-- Oracle for the C3 counterexample: the probe detects a wake word and the
transcription returns the wake phrase. -/
def sttC3 : SttEnv := ⟨fun _ => .ok true, fun _ => .ok "hey eleni"⟩

/-- Concrete state for the endpointing half of the C3 witness: a buffered
voice chunk with the session awake. -/
def stC3b : AudioProcessingState :=
  ⟨fun _ => some ⟨"s", [[255, 127]], 2, 0⟩, fun _ => some ⟨true, true, none⟩⟩

/-- The session's buffer entry is gone or empty (no chunks, zero bytes). -/
def emptyEntry (st : AudioProcessingState) (sessionId : String) : Prop :=
  st.audioBuffers sessionId = none ∨
    ∃ b, st.audioBuffers sessionId = some b ∧ b.chunks = [] ∧ b.totalBytes = 0

/-- Concrete state for the C1 witness: no buffer or settings entries. -/
def stC1W : AudioProcessingState := ⟨fun _ => none, fun _ => none⟩

/-- An 8000-byte maximum-amplitude voice buffer. -/
def voiceBytes8000 : List Nat :=
  (List.replicate 4000 ([255, 127] : List Nat)).flatten

/-- Concrete state for the C1 counterexample: an always-listen, not-awake
session with no tap window and no buffered audio. -/
def stCE : AudioProcessingState :=
  ⟨fun _ => none, fun _ => some ⟨true, false, none⟩⟩

/-! ## Theorems -/

theorem mapSet_get_same {α : Type} (m : String → Option α) (k : String) (v : α) :
    mapSet m k v k = some v := by
  simp [mapSet]

theorem mapSet_get_other {α : Type} (m : String → Option α) (k k2 : String)
    (v : α) (h : k2 ≠ k) : mapSet m k v k2 = m k2 := by
  simp [mapSet, h]

theorem mapDel_get_same {α : Type} (m : String → Option α) (k : String) :
    mapDel m k k = none := by
  simp [mapDel]

theorem mapSet_mapSet_same {α : Type} (m : String → Option α) (k : String)
    (v w : α) : mapSet (mapSet m k v) k w = mapSet m k w := by
  funext k2
  by_cases h : k2 = k <;> simp [mapSet, h]

theorem mapSet_get_self {α : Type} (m : String → Option α) (k : String) (v : α)
    (h : m k = some v) : mapSet m k v = m := by
  funext k2
  by_cases h2 : k2 = k <;> simp [mapSet, h2, h.symm]

/-! ## Basic facts -/

theorem energySum_nonneg : ∀ l : List Nat, 0 ≤ energySum l
  | [] => le_refl 0
  | [_] => le_refl 0
  | b0 :: b1 :: rest => by
    have h := energySum_nonneg rest
    have h2 := sq_nonneg (readInt16LE b0 b1)
    simp only [energySum]
    exact add_nonneg h2 h

theorem mapDel_mapSet_same {α : Type} (m : String → Option α) (k : String)
    (v : α) : mapDel (mapSet m k v) k = mapDel m k := by
  funext k2
  by_cases h : k2 = k <;> simp [mapDel, mapSet, h]

/-! ## Claim C9: voice-activity detection against the RMS threshold -/

/-- C9.  detectVoiceActivity returns false on every buffer shorter than 2
bytes, and on a longer buffer returns true exactly when the RMS energy
sqrt(energySum / (length / 2)) of its 16-bit samples exceeds the threshold
500: at or below the threshold it returns false, above it returns true. -/
theorem detectVoiceActivity_rms_characterization (buf : List Nat) :
    detectVoiceActivity buf = true ↔
      2 ≤ buf.length ∧
        (500 : ℝ) <
          Real.sqrt ((energySum buf : ℝ) / ((buf.length : ℝ) / 2)) := by
  unfold detectVoiceActivity
  by_cases h : buf.length < 2
  · simp only [h, if_true, if_pos]
    constructor
    · intro hfalse; exact absurd hfalse (by simp)
    · intro ⟨h2, _⟩; omega
  · have hlen : 2 ≤ buf.length := not_lt.mp h
    have hlpos : (0:ℝ) < (buf.length : ℝ) := by
      have : 0 < buf.length := by omega
      exact_mod_cast this
    have hn : (0:ℝ) < (buf.length : ℝ) / 2 := by positivity
    rw [if_neg h, decide_eq_true_eq]
    rw [Real.lt_sqrt (by norm_num : (0:ℝ) ≤ 500)]
    rw [lt_div_iff₀ hn]
    constructor
    · intro hgt
      refine ⟨hlen, ?_⟩
      have hr : (2:ℝ) * (energySum buf : ℝ)
          > 250000 * (buf.length : ℝ) := by exact_mod_cast hgt
      nlinarith
    · intro ⟨_, hr⟩
      have : ((500:Int) ^ 2 * (buf.length : Int) : Int) <
          2 * energySum buf := by
        have h2 : (500:ℝ)^2 * ((buf.length:ℝ)/2) < (energySum buf : ℝ) := hr
        have h3 : (250000 : ℝ) * (buf.length : ℝ)
            < 2 * (energySum buf : ℝ) := by nlinarith
        exact_mod_cast h3
      exact this

/-! ## Claim C10: a transcript-carrying result is always final -/

/-- C10.  Every result returned (without raising) by processAudioChunk that
carries a transcript has isFinal = true: the pipeline never produces a
partial transcript. -/
theorem processAudioChunk_transcript_implies_final (cfg : AudioConfig)
    (stt : SttEnv) (st : AudioProcessingState) (sessionId : String)
    (chunk : List Nat) (now : Nat) (r : ChunkResult)
    (st2 : AudioProcessingState)
    (h : processAudioChunk cfg stt st sessionId chunk now = .ok (r, st2))
    (ht : r.transcript ≠ none) : r.isFinal = true := by
  unfold processAudioChunk at h
  simp only [] at h
  repeat' split at h
  all_goals first
    | (simp only [Except.ok.injEq, Prod.mk.injEq] at h
       obtain ⟨hr, -⟩ := h
       subst hr
       simp_all)
    | simp_all

/-- Witness for C10: a concrete boundary call that returns a transcript. -/
theorem processAudioChunk_transcript_implies_final_witness :
    ({ transcript := some "t", isFinal := true } : ChunkResult).isFinal
      = true :=
  processAudioChunk_transcript_implies_final
    ⟨1, 2⟩ sttW stW "s" [0, 0] 5
    ⟨some "t", true⟩
    ⟨mapDel (mapSet stW.audioBuffers "s" ⟨"s", [[255, 127]], 2, 0⟩) "s",
      stW.sessionSettings⟩
    rfl (by decide)

/-! ## Claim C5: interrupt does not actually stop chunk delivery (code bug)

The delivery loop of streamAudioResponse tests respInterrupted on the
envelope returned by getSession; since the envelope carries no interrupted
field the test is always false and delivery never stops, even when the
session's interrupted flag is set. -/

/-- C5.  Even when the stored session has interrupted = true throughout the
stream, streamAudioResponse emits every chunk: the break that is supposed to
suppress delivery never fires, because the loop reads the interrupted
property off the response envelope instead of the session payload. -/
theorem streamAudioResponse_ignores_interrupt (store : ConversationStore)
    (sessionId : String) (s : ConversationSession) (chunks : List (List Nat))
    (hs : store.sessions sessionId = some s)
    (hint : s.interrupted = true) :
    streamAudioResponse store sessionId chunks = chunks := by
  induction chunks with
  | nil => rfl
  | cons c rest ih => simp [streamAudioResponse, respInterrupted, ih]

/-- Witness for C5: with the interrupted session in the store, both chunks of
a two-chunk stream are still emitted. -/
theorem streamAudioResponse_ignores_interrupt_witness :
    streamAudioResponse storeC5 "s1" [[1], [2]] = [[1], [2]] :=
  streamAudioResponse_ignores_interrupt storeC5 "s1" interruptedSession
    [[1], [2]] (by decide) (by decide)

/-! ## Claim C4: endSession is not idempotent -/

/-- Counterexample to C4 as stated: ending the same session twice returns an
error result (the 404 NotFound failure) on the second call, so endSession is
not idempotent in the claimed sense. -/
theorem endSession_second_call_errors :
    (endSession (endSession storeC4 "s1").2 "s1").1.success = false ∧
    (endSession (endSession storeC4 "s1").2 "s1").1.status = some 404 := by
  constructor <;> decide

/-- C4 amended.  Every per-session operation of the conversation store,
including endSession, fails NotFound (success = false, status 404) and
leaves the store unchanged when the session is absent; and getSession after
a successful endSession returns NotFound. -/
theorem conversation_ops_notFound (store : ConversationStore)
    (sessionId ctx userMessage : String) (now : Nat)
    (llm : List Message → String → String) (flag : Bool) :
    (store.sessions sessionId = none →
      getSession store sessionId = notFoundResponse ∧
      addContext store sessionId ctx now = (notFoundResponse, store) ∧
      processMessage llm store sessionId userMessage now
        = (notFoundResponse, store) ∧
      setInterrupted store sessionId flag = (notFoundResponse, store) ∧
      clearHistory store sessionId now = (notFoundResponse, store) ∧
      endSession store sessionId = (notFoundResponse, store)) ∧
    (∀ s : ConversationSession, store.sessions sessionId = some s →
      getSession (endSession store sessionId).2 sessionId
        = notFoundResponse) := by
  constructor
  · intro h
    refine ⟨?_, ?_, ?_, ?_, ?_, ?_⟩ <;>
      simp [getSession, addContext, processMessage, setInterrupted,
        clearHistory, endSession, withSession, h, notFoundResponse]
  · intro s hs
    simp [endSession, withSession, hs, removeActiveSessionId, getSession,
      mapDel, notFoundResponse]

/-- Witness for C4: on the concrete store, a lookup of an absent id fails
NotFound, and getSession after endSession of the present id fails
NotFound. -/
theorem conversation_ops_notFound_witness :
    getSession storeC4 "s2" = notFoundResponse ∧
    getSession (endSession storeC4 "s1").2 "s1" = notFoundResponse :=
  ⟨((conversation_ops_notFound storeC4 "s2" "c" "m" 0 (fun _ _ => "r")
      true).1 (by decide)).1,
    (conversation_ops_notFound storeC4 "s1" "c" "m" 0 (fun _ _ => "r")
      true).2 sessionC4 (by decide)⟩

/-! ## Claim C6: message history is insertion-ordered and capped at 20 -/

/-- The slice(-20) trim of processMessage, as a drop of the oldest excess
entries (a no-op when the list is within the cap). -/
theorem trim20 {α : Type} (l : List α) :
    (if l.length > 20 then l.drop (l.length - 20) else l)
      = l.drop (l.length - 20) := by
  by_cases h : l.length > 20
  · simp [h]
  · have h0 : l.length - 20 = 0 := by omega
    simp [h, h0]

/-- C6.  processMessage appends the user and assistant messages and keeps
exactly the most recent 20 entries: the stored list is the suffix of the
appended list obtained by dropping the oldest entries beyond 20, so its
length is min (n + 2) 20 and the surviving entries keep their order. -/
theorem processMessage_cap (llm : List Message → String → String)
    (store : ConversationStore) (sessionId : String) (s : ConversationSession)
    (userMessage : String) (now : Nat)
    (hs : store.sessions sessionId = some s) :
    ∃ s2 : ConversationSession,
      ((processMessage llm store sessionId userMessage now).2).sessions
          sessionId = some s2 ∧
      s2.messages =
        (s.messages ++ [Message.mk Role.user userMessage,
            Message.mk Role.assistant
              (llm (s.messages ++ [Message.mk Role.user userMessage])
                s.context)]).drop
          (s.messages.length + 2 - 20) ∧
      s2.messages.length = min (s.messages.length + 2) 20 ∧
      s2.messages <:+
        s.messages ++ [Message.mk Role.user userMessage,
          Message.mk Role.assistant
            (llm (s.messages ++ [Message.mk Role.user userMessage])
              s.context)] := by
  have he :
      (s.messages ++ [Message.mk Role.user userMessage]) ++
          [Message.mk Role.assistant
            (llm (s.messages ++ [Message.mk Role.user userMessage])
              s.context)]
        = s.messages ++ [Message.mk Role.user userMessage,
            Message.mk Role.assistant
              (llm (s.messages ++ [Message.mk Role.user userMessage])
                s.context)] := by
    simp
  have hkey :
      ((processMessage llm store sessionId userMessage now).2).sessions
          sessionId
        = some { s with
            messages :=
              (if ((s.messages ++ [Message.mk Role.user userMessage]) ++
                    [Message.mk Role.assistant
                      (llm (s.messages ++ [Message.mk Role.user userMessage])
                        s.context)]).length > 20 then
                ((s.messages ++ [Message.mk Role.user userMessage]) ++
                    [Message.mk Role.assistant
                      (llm (s.messages ++
                          [Message.mk Role.user userMessage])
                        s.context)]).drop
                  (((s.messages ++ [Message.mk Role.user userMessage]) ++
                        [Message.mk Role.assistant
                          (llm (s.messages ++
                              [Message.mk Role.user userMessage])
                            s.context)]).length - 20)
              else
                (s.messages ++ [Message.mk Role.user userMessage]) ++
                  [Message.mk Role.assistant
                    (llm (s.messages ++ [Message.mk Role.user userMessage])
                      s.context)])
            lastActivityAt := now
            interrupted := false } := by
    simp only [processMessage, withSession, hs]
    exact mapSet_get_same _ _ _
  refine ⟨_, hkey, ?_, ?_, ?_⟩
  · dsimp only
    rw [he, trim20]
    congr 1
    simp
  · dsimp only
    rw [he, trim20, List.length_drop]
    simp only [List.length_append, List.length_cons, List.length_nil]
    omega
  · dsimp only
    rw [he, trim20]
    exact List.drop_suffix _ _

/-- Witness for C6: appending to a 19-message session produces a 20-message
(trimmed) suffix of the appended list. -/
theorem processMessage_cap_witness :
    ∃ s2 : ConversationSession,
      ((processMessage (fun _ _ => "r") storeC6 "s1" "u" 7).2).sessions "s1"
          = some s2 ∧
      s2.messages =
        (sessionC6.messages ++ [Message.mk Role.user "u",
            Message.mk Role.assistant "r"]).drop
          (sessionC6.messages.length + 2 - 20) ∧
      s2.messages.length = min (sessionC6.messages.length + 2) 20 ∧
      s2.messages <:+
        sessionC6.messages ++ [Message.mk Role.user "u",
          Message.mk Role.assistant "r"] :=
  processMessage_cap (fun _ _ => "r") storeC6 "s1" sessionC6 "u" 7 (by decide)

/-! ## Claim C8: lastActivityAt on mutating operations -/

/-- Counterexample to C8 as stated: setInterrupted persists the session with
the flag updated but lastActivityAt untouched (still 5), so not every
mutating store operation advances lastActivityAt. -/
theorem setInterrupted_keeps_lastActivityAt :
    sessionC8.lastActivityAt = 5 ∧
    ((setInterrupted storeC8 "s1" true).2.sessions "s1").map
      (fun s => s.interrupted) = some true ∧
    ((setInterrupted storeC8 "s1" true).2.sessions "s1").map
      (fun s => s.lastActivityAt) = some 5 := by
  refine ⟨rfl, ?_, ?_⟩ <;> decide

/-- C8 amended.  addContext, processMessage and clearHistory each set
lastActivityAt to the operation time before persisting; setInterrupted
persists the updated flag but leaves lastActivityAt exactly as it was. -/
theorem lastActivityAt_updates (store : ConversationStore)
    (sessionId ctx userMessage : String) (s : ConversationSession)
    (now : Nat) (llm : List Message → String → String) (flag : Bool)
    (hs : store.sessions sessionId = some s) :
    ((addContext store sessionId ctx now).2.sessions sessionId
        = some { s with context := ctx, lastActivityAt := now }) ∧
    (∃ s2 : ConversationSession,
      (processMessage llm store sessionId userMessage now).2.sessions
          sessionId = some s2 ∧ s2.lastActivityAt = now) ∧
    ((clearHistory store sessionId now).2.sessions sessionId
        = some { s with messages := [], lastActivityAt := now }) ∧
    ((setInterrupted store sessionId flag).2.sessions sessionId
        = some { s with interrupted := flag }) := by
  have hpm :
      (processMessage llm store sessionId userMessage now).2.sessions
          sessionId
        = some { s with
            messages :=
              (if ((s.messages ++ [Message.mk Role.user userMessage]) ++
                    [Message.mk Role.assistant
                      (llm (s.messages ++ [Message.mk Role.user userMessage])
                        s.context)]).length > 20 then
                ((s.messages ++ [Message.mk Role.user userMessage]) ++
                    [Message.mk Role.assistant
                      (llm (s.messages ++
                          [Message.mk Role.user userMessage])
                        s.context)]).drop
                  (((s.messages ++ [Message.mk Role.user userMessage]) ++
                        [Message.mk Role.assistant
                          (llm (s.messages ++
                              [Message.mk Role.user userMessage])
                            s.context)]).length - 20)
              else
                (s.messages ++ [Message.mk Role.user userMessage]) ++
                  [Message.mk Role.assistant
                    (llm (s.messages ++ [Message.mk Role.user userMessage])
                      s.context)])
            lastActivityAt := now
            interrupted := false } := by
    simp only [processMessage, withSession, hs]
    exact mapSet_get_same _ _ _
  refine ⟨?_, ⟨_, hpm, rfl⟩, ?_, ?_⟩
  · simp [addContext, withSession, hs, mapSet_get_same]
  · simp [clearHistory, withSession, hs, mapSet_get_same]
  · simp [setInterrupted, withSession, hs, mapSet_get_same]

/-- Witness for C8: on the concrete store, addContext at time 9 stores
lastActivityAt 9 while setInterrupted keeps it at 5. -/
theorem lastActivityAt_updates_witness :
    ((addContext storeC8 "s1" "c" 9).2.sessions "s1"
        = some { sessionC8 with context := "c", lastActivityAt := 9 }) ∧
    ((setInterrupted storeC8 "s1" true).2.sessions "s1"
        = some { sessionC8 with interrupted := true }) :=
  ⟨(lastActivityAt_updates storeC8 "s1" "c" "m" sessionC8 9
      (fun _ _ => "r") true (by decide)).1,
    (lastActivityAt_updates storeC8 "s1" "c" "m" sessionC8 9
      (fun _ _ => "r") true (by decide)).2.2.2⟩

/-- Voice chunk, wake-word probe not run (always-listen off, already awake,
or not enough audio yet): the chunk is appended and the result is
non-final. -/
theorem processAudioChunk_voice_noprobe (cfg : AudioConfig) (stt : SttEnv)
    (st : AudioProcessingState) (sessionId : String) (c : List Nat)
    (now : Nat) (hv : detectVoiceActivity c = true)
    (hno : ¬ ((settingsOf st sessionId).alwaysListen = true ∧
      (settingsOf st sessionId).awake = false ∧
      cfg.minAudioLengthBytes ≤
        4 * ((bufD st sessionId now).totalBytes + c.length))) :
    processAudioChunk cfg stt st sessionId c now
      = .ok (⟨none, false⟩,
        ⟨mapSet st.audioBuffers sessionId
            (pushChunk (bufD st sessionId now) c now),
          st.sessionSettings⟩) := by
  unfold processAudioChunk
  simp only [settingsOf, bufD, pushChunk] at hno ⊢
  simp only [hv, if_true, reduceIte]
  rw [if_neg hno, mapSet_mapSet_same]

/-- Silence chunk with the boundary condition not met: the state is the
stored (or lazily created) buffer written back unchanged and the result is
non-final. -/
theorem processAudioChunk_silence_idle (cfg : AudioConfig) (stt : SttEnv)
    (st : AudioProcessingState) (sessionId : String) (c : List Nat)
    (now : Nat) (hv : detectVoiceActivity c = false)
    (hno : ¬ (0 < (bufD st sessionId now).chunks.length ∧
      cfg.minAudioLengthBytes ≤ (bufD st sessionId now).totalBytes ∧
      cfg.silenceThresholdMs ≤ now - (bufD st sessionId now).lastChunkTime)) :
    processAudioChunk cfg stt st sessionId c now
      = .ok (⟨none, false⟩,
        ⟨mapSet st.audioBuffers sessionId (bufD st sessionId now),
          st.sessionSettings⟩) := by
  unfold processAudioChunk
  simp only [bufD] at hno ⊢
  simp only [hv, Bool.false_eq_true, if_false]
  rw [if_neg hno]

/-- Silence chunk at an utterance boundary: the buffer entry is deleted;
the result is the suppressed non-final one when the always-listen gate
holds, and otherwise the transcription of the accumulated audio (with the
awake flag cleared if it was set), a transcription failure propagating. -/
theorem processAudioChunk_boundary (cfg : AudioConfig) (stt : SttEnv)
    (st : AudioProcessingState) (sessionId : String) (c : List Nat)
    (now : Nat) (b : AudioBuffer)
    (hb : st.audioBuffers sessionId = some b)
    (hv : detectVoiceActivity c = false)
    (hcs : b.chunks ≠ [])
    (hmin : cfg.minAudioLengthBytes ≤ b.totalBytes)
    (hsil : cfg.silenceThresholdMs ≤ now - b.lastChunkTime) :
    processAudioChunk cfg stt st sessionId c now
      = (if suppressGate st sessionId now then
          .ok (⟨none, false⟩,
            ⟨mapDel st.audioBuffers sessionId, st.sessionSettings⟩)
        else
          match stt.transcribeAudio b.chunks.flatten with
          | .error e => .error e
          | .ok t =>
            .ok (⟨some t, true⟩,
              ⟨mapDel st.audioBuffers sessionId,
                if (settingsOf st sessionId).awake = true then
                  mapSet st.sessionSettings sessionId
                    { settingsOf st sessionId with awake := false }
                else st.sessionSettings⟩)) := by
  unfold processAudioChunk
  simp only [hb, Option.getD_some]
  simp only [hv, Bool.false_eq_true, if_false]
  rw [if_pos ⟨List.length_pos.mpr hcs, hmin, hsil⟩]
  simp only [suppressGate, settingsOf]
  rw [mapDel_mapSet_same]
  by_cases hg :
      ((st.sessionSettings sessionId).getD defaultSettings).alwaysListen
          = true ∧
        ((st.sessionSettings sessionId).getD defaultSettings).awake = false ∧
        ¬ (now <
          ((st.sessionSettings sessionId).getD
              defaultSettings).tapToListenExpiresAt.getD 0)
  · rw [if_pos hg, if_pos hg]
  · rw [if_neg hg, if_neg hg]
    cases stt.transcribeAudio b.chunks.flatten with
    | error e => rfl
    | ok t =>
      by_cases ha :
          ((st.sessionSettings sessionId).getD defaultSettings).awake = true
      · rw [if_pos ha, if_pos ha]
      · rw [if_neg ha, if_neg ha]

/-- Voice chunk triggering a successful wake-word probe: the accumulated
audio (with the new chunk) is transcribed, the buffer entry deleted, and the
settings persisted with awake set to true. -/
theorem processAudioChunk_wake (cfg : AudioConfig) (stt : SttEnv)
    (st : AudioProcessingState) (sessionId : String) (c : List Nat)
    (now : Nat) (t : String)
    (hv : detectVoiceActivity c = true)
    (hAL : (settingsOf st sessionId).alwaysListen = true)
    (hAw : (settingsOf st sessionId).awake = false)
    (hq : cfg.minAudioLengthBytes ≤
      4 * ((bufD st sessionId now).totalBytes + c.length))
    (hw : stt.detectWakeWord
      ((pushChunk (bufD st sessionId now) c now).chunks.flatten) = .ok true)
    (ht : stt.transcribeAudio
      ((pushChunk (bufD st sessionId now) c now).chunks.flatten) = .ok t) :
    processAudioChunk cfg stt st sessionId c now
      = .ok (⟨some t, true⟩,
        ⟨mapDel st.audioBuffers sessionId,
          mapSet st.sessionSettings sessionId
            { settingsOf st sessionId with awake := true }⟩) := by
  unfold processAudioChunk
  simp only [settingsOf, bufD, pushChunk] at hAL hAw hq hw ht ⊢
  simp only [hv, if_true, reduceIte]
  rw [if_pos ⟨hAL, hAw, hq⟩, hw, ht]
  rw [mapDel_mapSet_same, mapDel_mapSet_same]

/-- Voice chunk with the wake-word probe either skipped or answering
not-detected: the chunk is appended and the result is non-final. -/
theorem processAudioChunk_voice_nodetect (cfg : AudioConfig) (stt : SttEnv)
    (st : AudioProcessingState) (sessionId : String) (c : List Nat)
    (now : Nat) (hv : detectVoiceActivity c = true)
    (hw : stt.detectWakeWord
      ((pushChunk (bufD st sessionId now) c now).chunks.flatten)
      = .ok false) :
    processAudioChunk cfg stt st sessionId c now
      = .ok (⟨none, false⟩,
        ⟨mapSet st.audioBuffers sessionId
            (pushChunk (bufD st sessionId now) c now),
          st.sessionSettings⟩) := by
  by_cases hp : ((settingsOf st sessionId).alwaysListen = true ∧
      (settingsOf st sessionId).awake = false ∧
      cfg.minAudioLengthBytes ≤
        4 * ((bufD st sessionId now).totalBytes + c.length))
  · unfold processAudioChunk
    simp only [settingsOf, bufD, pushChunk] at hp hw ⊢
    simp only [hv, if_true, reduceIte]
    rw [if_pos hp, hw]
    rw [mapSet_mapSet_same]
  · exact processAudioChunk_voice_noprobe cfg stt st sessionId c now hv hp

/-! ## Claim C2: suppression at an utterance boundary -/

/-- C2.  At a silence-detected utterance boundary (stored buffer non-empty,
totalBytes at least the minimum, silence duration at least the threshold)
the buffer entry is always cleared, and the result is the suppressed
transcript-less non-final one exactly when alwaysListen is on, awake is off
and no tap-to-listen window is active; otherwise — in particular under an
unexpired tap window — the accumulated audio is transcribed and returned as
a final result. -/
theorem boundary_suppression_iff (cfg : AudioConfig) (stt : SttEnv)
    (f : List Nat → String)
    (htr : stt.transcribeAudio = fun bs => .ok (f bs))
    (st : AudioProcessingState) (sessionId : String) (c : List Nat)
    (now : Nat) (b : AudioBuffer)
    (hb : st.audioBuffers sessionId = some b)
    (hcs : b.chunks ≠ [])
    (hmin : cfg.minAudioLengthBytes ≤ b.totalBytes)
    (hv : detectVoiceActivity c = false)
    (hsil : cfg.silenceThresholdMs ≤ now - b.lastChunkTime) :
    ∃ r st2,
      processAudioChunk cfg stt st sessionId c now = .ok (r, st2) ∧
      st2.audioBuffers sessionId = none ∧
      ((r.transcript = none ∧ r.isFinal = false) ↔
        suppressGate st sessionId now) ∧
      (¬ suppressGate st sessionId now →
        r = ⟨some (f b.chunks.flatten), true⟩) := by
  have heq := processAudioChunk_boundary cfg stt st sessionId c now b hb hv
    hcs hmin hsil
  have heval : stt.transcribeAudio b.chunks.flatten
      = .ok (f b.chunks.flatten) := by rw [htr]
  by_cases hg : suppressGate st sessionId now
  · refine ⟨⟨none, false⟩,
      ⟨mapDel st.audioBuffers sessionId, st.sessionSettings⟩, ?_, ?_, ?_, ?_⟩
    · rw [heq, if_pos hg]
    · exact mapDel_get_same _ _
    · simp [hg]
    · intro hng
      exact absurd hg hng
  · refine ⟨⟨some (f b.chunks.flatten), true⟩,
      ⟨mapDel st.audioBuffers sessionId,
        if (settingsOf st sessionId).awake = true then
          mapSet st.sessionSettings sessionId
            { settingsOf st sessionId with awake := false }
        else st.sessionSettings⟩, ?_, ?_, ?_, ?_⟩
    · rw [heq, if_neg hg, heval]
    · exact mapDel_get_same _ _
    · simp [hg]
    · intro _
      rfl

/-- Witness for C2: with the tap window active at time 5, the boundary is
not suppressed and yields the final transcript. -/
theorem boundary_suppression_iff_witness :
    ∃ r st2,
      processAudioChunk ⟨1, 2⟩ sttW stwC2 "s" [0, 0] 5 = .ok (r, st2) ∧
      st2.audioBuffers "s" = none ∧
      ((r.transcript = none ∧ r.isFinal = false) ↔
        suppressGate stwC2 "s" 5) ∧
      (¬ suppressGate stwC2 "s" 5 → r = ⟨some "t", true⟩) :=
  boundary_suppression_iff ⟨1, 2⟩ sttW (fun _ => "t") rfl stwC2 "s" [0, 0] 5
    ⟨"s", [[255, 127]], 2, 0⟩ rfl (by decide) (by decide) (by decide)
    (by decide)

/-! ## Claim C7: a failing wake-word probe degrades to not-detected -/

/-- C7.  A wake-word probe that raises is indistinguishable from one that
returns not-detected: processAudioChunk with a throwing probe computes the
same result and state as with a probe answering false, and on a voice-active
chunk the call still returns (without raising) a non-final result. -/
theorem wake_probe_failure_benign (cfg : AudioConfig)
    (tr : List Nat → Except String String) (e : String)
    (st : AudioProcessingState) (sessionId : String) (c : List Nat)
    (now : Nat) :
    processAudioChunk cfg ⟨fun _ => .error e, tr⟩ st sessionId c now
      = processAudioChunk cfg ⟨fun _ => .ok false, tr⟩ st sessionId c now ∧
    (detectVoiceActivity c = true →
      ∃ st2,
        processAudioChunk cfg ⟨fun _ => .error e, tr⟩ st sessionId c now
          = .ok (⟨none, false⟩, st2)) := by
  constructor
  · rfl
  · intro hv
    by_cases hp : ((settingsOf st sessionId).alwaysListen = true ∧
      (settingsOf st sessionId).awake = false ∧
      cfg.minAudioLengthBytes ≤
        4 * ((bufD st sessionId now).totalBytes + c.length))
    · refine ⟨⟨mapSet (mapSet st.audioBuffers sessionId
          (bufD st sessionId now)) sessionId
          (pushChunk (bufD st sessionId now) c now),
        st.sessionSettings⟩, ?_⟩
      unfold processAudioChunk
      simp only [settingsOf, bufD] at hp
      simp only [hv, if_true, reduceIte]
      rw [if_pos hp]
      rfl
    · exact ⟨_, processAudioChunk_voice_noprobe cfg ⟨fun _ => .error e, tr⟩
        st sessionId c now hv hp⟩

/-- Witness for C7: on a voice chunk that triggers the probe, a throwing
probe behaves like a not-detected one and the call returns non-final. -/
theorem wake_probe_failure_benign_witness :
    processAudioChunk ⟨1, 2⟩ ⟨fun _ => .error "boom", fun _ => .ok "t"⟩
        stC7 "s" [255, 127] 3
      = processAudioChunk ⟨1, 2⟩ ⟨fun _ => .ok false, fun _ => .ok "t"⟩
        stC7 "s" [255, 127] 3 ∧
    ∃ st2,
      processAudioChunk ⟨1, 2⟩ ⟨fun _ => .error "boom", fun _ => .ok "t"⟩
          stC7 "s" [255, 127] 3
        = .ok (⟨none, false⟩, st2) :=
  ⟨(wake_probe_failure_benign ⟨1, 2⟩ (fun _ => .ok "t") "boom" stC7 "s"
      [255, 127] 3).1,
    (wake_probe_failure_benign ⟨1, 2⟩ (fun _ => .ok "t") "boom" stC7 "s"
      [255, 127] 3).2 (by decide)⟩

/-! ## Claim C3: the awake flag across the two delivery paths -/

/-- Counterexample to C3 as stated: a wake-path call returns a final
transcript while awake is still true in the state left behind by that same
call — the flag is not cleared when the call returns. -/
theorem wake_path_leaves_awake_set :
    chunkOutcome (processAudioChunk ⟨1, 2⟩ sttC3 stC3 "s" [255, 127] 0)
      = some ⟨some "hey eleni", true⟩ ∧
    (stateAfter (processAudioChunk ⟨1, 2⟩ sttC3 stC3 "s" [255, 127] 0)).map
        (fun st => (st.sessionSettings "s").map (fun q => q.awake))
      = some (some true) :=
  ⟨rfl, rfl⟩

/-- C3 amended.  On the wake path, awake is set to true and is still true
after that same call returns its final transcript; the flag is reset to
false when the following utterance is delivered through the silence-based
endpointing path (a boundary reached while awake). -/
theorem awake_lifecycle (cfg : AudioConfig) (stt : SttEnv)
    (st : AudioProcessingState) (sessionId : String) (c : List Nat)
    (now : Nat) (t : String) :
    (detectVoiceActivity c = true →
      (settingsOf st sessionId).alwaysListen = true →
      (settingsOf st sessionId).awake = false →
      cfg.minAudioLengthBytes ≤
        4 * ((bufD st sessionId now).totalBytes + c.length) →
      stt.detectWakeWord
          ((pushChunk (bufD st sessionId now) c now).chunks.flatten)
        = .ok true →
      stt.transcribeAudio
          ((pushChunk (bufD st sessionId now) c now).chunks.flatten)
        = .ok t →
      ∃ st2,
        processAudioChunk cfg stt st sessionId c now
          = .ok (⟨some t, true⟩, st2) ∧
        (st2.sessionSettings sessionId).map (fun q => q.awake)
          = some true) ∧
    (∀ b : AudioBuffer, st.audioBuffers sessionId = some b →
      detectVoiceActivity c = false → b.chunks ≠ [] →
      cfg.minAudioLengthBytes ≤ b.totalBytes →
      cfg.silenceThresholdMs ≤ now - b.lastChunkTime →
      (settingsOf st sessionId).awake = true →
      stt.transcribeAudio b.chunks.flatten = .ok t →
      ∃ st2,
        processAudioChunk cfg stt st sessionId c now
          = .ok (⟨some t, true⟩, st2) ∧
        (st2.sessionSettings sessionId).map (fun q => q.awake)
          = some false) := by
  constructor
  · intro hv hAL hAw hq hw ht
    refine ⟨_, processAudioChunk_wake cfg stt st sessionId c now t hv hAL
      hAw hq hw ht, ?_⟩
    simp [mapSet_get_same]
  · intro b hb hv hcs hmin hsil hAw ht
    have heq := processAudioChunk_boundary cfg stt st sessionId c now b hb
      hv hcs hmin hsil
    have hg : ¬ suppressGate st sessionId now := by
      intro hgx
      have h2 := hgx.2.1
      rw [hAw] at h2
      exact absurd h2 (by simp)
    refine ⟨⟨mapDel st.audioBuffers sessionId,
        mapSet st.sessionSettings sessionId
          { settingsOf st sessionId with awake := false }⟩, ?_, ?_⟩
    · rw [heq, if_neg hg, ht, hAw]
      simp
    · simp [mapSet_get_same]

/-- Witness for C3 (amended): the wake path leaves awake true; a boundary
reached while awake delivers the final transcript and clears awake. -/
theorem awake_lifecycle_witness :
    (∃ st2,
      processAudioChunk ⟨1, 2⟩ sttC3 stC3 "s" [255, 127] 0
        = .ok (⟨some "hey eleni", true⟩, st2) ∧
      (st2.sessionSettings "s").map (fun q => q.awake) = some true) ∧
    (∃ st2,
      processAudioChunk ⟨1, 2⟩ sttC3 stC3b "s" [0, 0] 5
        = .ok (⟨some "hey eleni", true⟩, st2) ∧
      (st2.sessionSettings "s").map (fun q => q.awake) = some false) :=
  ⟨(awake_lifecycle ⟨1, 2⟩ sttC3 stC3 "s" [255, 127] 0 "hey eleni").1
      (by decide) rfl rfl (by decide) rfl rfl,
    (awake_lifecycle ⟨1, 2⟩ sttC3 stC3b "s" [0, 0] 5 "hey eleni").2
      ⟨"s", [[255, 127]], 2, 0⟩ rfl (by decide) (by decide) (by decide)
      (by decide) rfl rfl⟩

/-! ## Claim C1: endpointing finality over a trace -/

/-- Traces compose: a successful run of a first input segment followed by a
successful run of the rest, from the reached state, is a successful run of
the concatenation. -/
theorem runAudioTrace_append (cfg : AudioConfig) (stt : SttEnv)
    (sessionId : String) :
    ∀ (L1 L2 : List (List Nat × Nat)) (st st1 st2 : AudioProcessingState)
      (rs1 rs2 : List ChunkResult),
      runAudioTrace cfg stt sessionId st L1 = .ok (rs1, st1) →
      runAudioTrace cfg stt sessionId st1 L2 = .ok (rs2, st2) →
      runAudioTrace cfg stt sessionId st (L1 ++ L2)
        = .ok (rs1 ++ rs2, st2) := by
  intro L1
  induction L1 with
  | nil =>
    intro L2 st st1 st2 rs1 rs2 h1 h2
    simp only [runAudioTrace] at h1
    obtain ⟨hrs, hst⟩ := by exact Prod.mk.injEq .. ▸ (Except.ok.inj h1)
    subst hrs
    subst hst
    simpa using h2
  | cons p L1' ih =>
    intro L2 st st1 st2 rs1 rs2 h1 h2
    obtain ⟨c, t⟩ := p
    simp only [List.cons_append, runAudioTrace] at h1 ⊢
    cases hstep : processAudioChunk cfg stt st sessionId c t with
    | error e =>
      rw [hstep] at h1
      dsimp only at h1
      exact absurd h1 (by simp)
    | ok pr =>
      obtain ⟨r, stm⟩ := pr
      rw [hstep] at h1
      dsimp only at h1 ⊢
      cases hrest : runAudioTrace cfg stt sessionId stm L1' with
      | error e =>
        rw [hrest] at h1
        dsimp only at h1
        exact absurd h1 (by simp)
      | ok pq =>
        obtain ⟨rs1', stq⟩ := pq
        rw [hrest] at h1
        dsimp only at h1
        simp only [Except.ok.injEq, Prod.mk.injEq] at h1
        obtain ⟨hrs, hst⟩ := h1
        subst hst
        simp only [List.append_eq]
        rw [ih L2 stm stq st2 rs1' rs2 hrest h2]
        simp [← hrs]

theorem runAudioTrace_voice (cfg : AudioConfig) (stt : SttEnv)
    (sessionId : String) :
    ∀ (V : List (List Nat × Nat)) (st : AudioProcessingState)
      (b : AudioBuffer),
      st.audioBuffers sessionId = some b →
      (settingsOf st sessionId).alwaysListen = false →
      (∀ p ∈ V, detectVoiceActivity p.1 = true) →
      runAudioTrace cfg stt sessionId st V
        = .ok (V.map (fun _ => ⟨none, false⟩),
          ⟨mapSet st.audioBuffers sessionId
            ⟨b.sessionId, b.chunks ++ V.map Prod.fst,
              b.totalBytes + (V.map (fun p => p.1.length)).sum,
              V.foldl (fun _ p => p.2) b.lastChunkTime⟩,
            st.sessionSettings⟩) := by
  intro V
  induction V with
  | nil =>
    intro st b hb hAL _
    simp only [runAudioTrace, List.map_nil, List.sum_nil, List.foldl_nil,
      List.append_nil, Nat.add_zero]
    rw [mapSet_get_self _ _ _ hb]
  | cons p V' ih =>
    intro st b hb hAL hV
    obtain ⟨c, t⟩ := p
    have hv : detectVoiceActivity c = true := hV (c, t) (by simp)
    have hno : ¬ ((settingsOf st sessionId).alwaysListen = true ∧
        (settingsOf st sessionId).awake = false ∧
        cfg.minAudioLengthBytes ≤
          4 * ((bufD st sessionId t).totalBytes + c.length)) := by
      intro h
      rw [hAL] at h
      exact absurd h.1 (by simp)
    have hstep := processAudioChunk_voice_noprobe cfg stt st sessionId c t
      hv hno
    have hbD : bufD st sessionId t = b := by rw [bufD, hb]; rfl
    rw [hbD] at hstep
    have hb2 : (⟨mapSet st.audioBuffers sessionId (pushChunk b c t),
        st.sessionSettings⟩ : AudioProcessingState).audioBuffers sessionId
          = some (pushChunk b c t) := mapSet_get_same _ _ _
    have hV' : ∀ q ∈ V', detectVoiceActivity q.1 = true :=
      fun q hq => hV q (by simp [hq])
    have hih := ih ⟨mapSet st.audioBuffers sessionId (pushChunk b c t),
        st.sessionSettings⟩ (pushChunk b c t) hb2 hAL hV'
    simp only [runAudioTrace]
    rw [hstep]
    dsimp only
    rw [hih]
    simp only [mapSet_mapSet_same, pushChunk]
    simp [List.append_assoc, Nat.add_assoc]

theorem runAudioTrace_silence_quiet (cfg : AudioConfig) (stt : SttEnv)
    (sessionId : String) :
    ∀ (S : List (List Nat × Nat)) (st : AudioProcessingState)
      (b : AudioBuffer),
      st.audioBuffers sessionId = some b →
      (∀ p ∈ S, detectVoiceActivity p.1 = false ∧
        p.2 - b.lastChunkTime < cfg.silenceThresholdMs) →
      runAudioTrace cfg stt sessionId st S
        = .ok (S.map (fun _ => ⟨none, false⟩), st) := by
  intro S
  induction S with
  | nil =>
    intro st b hb _
    simp [runAudioTrace]
  | cons p S' ih =>
    intro st b hb hS
    obtain ⟨c, t⟩ := p
    obtain ⟨hv, hlt⟩ := hS (c, t) (by simp)
    have hbD : bufD st sessionId t = b := by rw [bufD, hb]; rfl
    have hno : ¬ (0 < (bufD st sessionId t).chunks.length ∧
        cfg.minAudioLengthBytes ≤ (bufD st sessionId t).totalBytes ∧
        cfg.silenceThresholdMs ≤ t - (bufD st sessionId t).lastChunkTime) := by
      rw [hbD]
      intro h
      omega
    have hstep := processAudioChunk_silence_idle cfg stt st sessionId c t
      hv hno
    rw [hbD] at hstep
    have hETA : (⟨st.audioBuffers, st.sessionSettings⟩ :
        AudioProcessingState) = st := rfl
    simp only [runAudioTrace]
    rw [hstep]
    dsimp only
    rw [mapSet_get_self _ _ _ hb, hETA]
    rw [ih st b hb (fun q hq => hS q (by simp [hq]))]
    simp

theorem runAudioTrace_silence_empty (cfg : AudioConfig) (stt : SttEnv)
    (sessionId : String) :
    ∀ (S : List (List Nat × Nat)) (st : AudioProcessingState),
      emptyEntry st sessionId →
      (∀ p ∈ S, detectVoiceActivity p.1 = false) →
      ∃ stF, runAudioTrace cfg stt sessionId st S
          = .ok (S.map (fun _ => ⟨none, false⟩), stF) ∧
        emptyEntry stF sessionId := by
  intro S
  induction S with
  | nil =>
    intro st hst _
    exact ⟨st, by simp [runAudioTrace], hst⟩
  | cons p S' ih =>
    intro st hst hS
    obtain ⟨c, t⟩ := p
    have hv : detectVoiceActivity c = false := hS (c, t) (by simp)
    have hchunks : (bufD st sessionId t).chunks = []
        ∧ (bufD st sessionId t).totalBytes = 0 := by
      rcases hst with h | ⟨b, hb, hbc, hbt⟩
      · rw [bufD, h]
        exact ⟨rfl, rfl⟩
      · rw [bufD, hb]
        exact ⟨hbc, hbt⟩
    have hno : ¬ (0 < (bufD st sessionId t).chunks.length ∧
        cfg.minAudioLengthBytes ≤ (bufD st sessionId t).totalBytes ∧
        cfg.silenceThresholdMs ≤ t - (bufD st sessionId t).lastChunkTime) := by
      intro h
      rw [hchunks.1] at h
      exact absurd h.1 (by simp)
    have hstep := processAudioChunk_silence_idle cfg stt st sessionId c t
      hv hno
    have hempty2 : emptyEntry ⟨mapSet st.audioBuffers sessionId
        (bufD st sessionId t), st.sessionSettings⟩ sessionId :=
      Or.inr ⟨bufD st sessionId t, mapSet_get_same _ _ _,
        hchunks.1, hchunks.2⟩
    obtain ⟨stF, hrun, hF⟩ := ih ⟨mapSet st.audioBuffers sessionId
        (bufD st sessionId t), st.sessionSettings⟩ hempty2
      (fun q hq => hS q (by simp [hq]))
    refine ⟨stF, ?_, hF⟩
    simp only [runAudioTrace]
    rw [hstep]
    dsimp only
    rw [hrun]
    simp

/-- Single-step clearing discipline for a session with alwaysListen off and
a total transcription oracle: the buffer entry after a call is gone exactly
when the result is final, and the surviving chunk list is never a partial
clear — it is either the old list with the new chunk appended or the old
list unchanged. -/
theorem processAudioChunk_step_shape (cfg : AudioConfig) (stt : SttEnv)
    (f : List Nat → String)
    (htr : stt.transcribeAudio = fun bs => .ok (f bs))
    (st : AudioProcessingState) (sessionId : String) (c : List Nat)
    (now : Nat) (r : ChunkResult) (st2 : AudioProcessingState)
    (hAL : (settingsOf st sessionId).alwaysListen = false)
    (h : processAudioChunk cfg stt st sessionId c now = .ok (r, st2)) :
    (r.isFinal = true ↔ st2.audioBuffers sessionId = none) ∧
    (st2.audioBuffers sessionId = none ∨
      ∃ b2, st2.audioBuffers sessionId = some b2 ∧
        (b2.chunks = (bufD st sessionId now).chunks ++ [c] ∨
         b2.chunks = (bufD st sessionId now).chunks)) := by
  by_cases hv : detectVoiceActivity c = true
  · have hno : ¬ ((settingsOf st sessionId).alwaysListen = true ∧
        (settingsOf st sessionId).awake = false ∧
        cfg.minAudioLengthBytes ≤
          4 * ((bufD st sessionId now).totalBytes + c.length)) := by
      intro hx
      rw [hAL] at hx
      exact absurd hx.1 (by simp)
    rw [processAudioChunk_voice_noprobe cfg stt st sessionId c now hv hno]
      at h
    simp only [Except.ok.injEq, Prod.mk.injEq] at h
    obtain ⟨hr, hst⟩ := h
    subst hr
    subst hst
    constructor
    · simp [mapSet_get_same]
    · exact Or.inr ⟨pushChunk (bufD st sessionId now) c now,
        mapSet_get_same _ _ _, Or.inl rfl⟩
  · have hv2 : detectVoiceActivity c = false := by
      cases hx : detectVoiceActivity c
      · rfl
      · exact absurd hx hv
    by_cases hbd : (0 < (bufD st sessionId now).chunks.length ∧
        cfg.minAudioLengthBytes ≤ (bufD st sessionId now).totalBytes ∧
        cfg.silenceThresholdMs ≤ now - (bufD st sessionId now).lastChunkTime)
    · cases hsome : st.audioBuffers sessionId with
      | none =>
        rw [bufD, hsome] at hbd
        exact absurd hbd.1 (by simp [Option.getD])
      | some b =>
        have hbD : bufD st sessionId now = b := by rw [bufD, hsome]; rfl
        rw [hbD] at hbd
        have hgate : ¬ suppressGate st sessionId now := by
          intro hg
          have h1 := hg.1
          rw [hAL] at h1
          exact absurd h1 (by simp)
        rw [processAudioChunk_boundary cfg stt st sessionId c now b hsome
          hv2 (by intro hx; rw [hx] at hbd; exact absurd hbd.1 (by simp))
          hbd.2.1 hbd.2.2, if_neg hgate, htr] at h
        dsimp only at h
        simp only [Except.ok.injEq, Prod.mk.injEq] at h
        obtain ⟨hr, hst⟩ := h
        subst hr
        subst hst
        constructor
        · simp [mapDel_get_same]
        · exact Or.inl (mapDel_get_same _ _)
    · rw [processAudioChunk_silence_idle cfg stt st sessionId c now hv2 hbd]
        at h
      simp only [Except.ok.injEq, Prod.mk.injEq] at h
      obtain ⟨hr, hst⟩ := h
      subst hr
      subst hst
      constructor
      · simp [mapSet_get_same]
      · exact Or.inr ⟨bufD st sessionId now, mapSet_get_same _ _ _,
          Or.inr rfl⟩

theorem countP_map_nonfinal {α : Type} (L : List α) :
    ((L.map fun _ => (⟨none, false⟩ : ChunkResult)).countP
      fun r => r.isFinal) = 0 := by
  induction L with
  | nil => rfl
  | cons a L ih => simp [List.countP_cons, ih]

theorem countP_replicate_nonfinal (n : Nat) :
    ((List.replicate n (⟨none, false⟩ : ChunkResult)).countP
      fun r => r.isFinal) = 0 := by
  induction n with
  | zero => rfl
  | succ n ih => simp [List.replicate_succ, List.countP_cons, ih]

/-- C1 amended.  For a session whose alwaysListen setting is off, a fresh
buffer fed voice-active chunks totalling at least the minimum utterance
length, then silence chunks, produces: a non-final result for every call up
to and including the last one before the silence threshold has elapsed since
the final voice chunk, exactly one final result (at the first silence chunk
at or past the threshold, carrying the transcript of all accumulated audio),
and non-final results afterwards; the session's buffer entry is gone or
empty at the end; each single step either appends the chunk, leaves the
chunk list unchanged, or clears the entry completely — the entry is cleared
exactly when the result is final — and cleanup always removes the entry. -/
theorem endpointing_finality (cfg : AudioConfig) (stt : SttEnv)
    (f : List Nat → String)
    (htr : stt.transcribeAudio = fun bs => .ok (f bs))
    (hSIL : 0 < cfg.silenceThresholdMs)
    (st0 : AudioProcessingState) (sessionId : String)
    (hAL : (settingsOf st0 sessionId).alwaysListen = false)
    (hbuf : st0.audioBuffers sessionId = none)
    (c0 : List Nat) (t0 : Nat) (V S1 S2 : List (List Nat × Nat))
    (cstar : List Nat) (tstar : Nat)
    (hv0 : detectVoiceActivity c0 = true)
    (hV : ∀ p ∈ V, detectVoiceActivity p.1 = true)
    (hsum : cfg.minAudioLengthBytes ≤
      c0.length + (V.map (fun p => p.1.length)).sum)
    (hS1 : ∀ p ∈ S1, detectVoiceActivity p.1 = false ∧
      p.2 < V.foldl (fun _ p => p.2) t0 + cfg.silenceThresholdMs)
    (hvstar : detectVoiceActivity cstar = false)
    (hstar : V.foldl (fun _ p => p.2) t0 + cfg.silenceThresholdMs ≤ tstar)
    (hS2 : ∀ p ∈ S2, detectVoiceActivity p.1 = false) :
    ∃ stF,
      runAudioTrace cfg stt sessionId st0
          ((c0, t0) :: (V ++ (S1 ++ (cstar, tstar) :: S2)))
        = .ok (((c0, t0) :: V ++ S1).map
              (fun _ => (⟨none, false⟩ : ChunkResult)) ++
            (⟨some (f ((c0 :: V.map Prod.fst).flatten)), true⟩ :
                ChunkResult) ::
              S2.map (fun _ => (⟨none, false⟩ : ChunkResult)), stF) ∧
      emptyEntry stF sessionId ∧
      ((((c0, t0) :: V ++ S1).map
            (fun _ => (⟨none, false⟩ : ChunkResult)) ++
          (⟨some (f ((c0 :: V.map Prod.fst).flatten)), true⟩ :
              ChunkResult) ::
            S2.map (fun _ => (⟨none, false⟩ : ChunkResult))).countP
        (fun r => r.isFinal)) = 1 ∧
      (∀ (st : AudioProcessingState) (c : List Nat) (now : Nat)
          (r : ChunkResult) (st2 : AudioProcessingState),
        (settingsOf st sessionId).alwaysListen = false →
        processAudioChunk cfg stt st sessionId c now = .ok (r, st2) →
        ((r.isFinal = true ↔ st2.audioBuffers sessionId = none) ∧
          (st2.audioBuffers sessionId = none ∨
            ∃ b2, st2.audioBuffers sessionId = some b2 ∧
              (b2.chunks = (bufD st sessionId now).chunks ++ [c] ∨
               b2.chunks = (bufD st sessionId now).chunks)))) ∧
      (∀ st : AudioProcessingState,
        (cleanup st sessionId).audioBuffers sessionId = none) := by
  -- the first voice chunk, creating the buffer entry
  have hno0 : ¬ ((settingsOf st0 sessionId).alwaysListen = true ∧
      (settingsOf st0 sessionId).awake = false ∧
      cfg.minAudioLengthBytes ≤
        4 * ((bufD st0 sessionId t0).totalBytes + c0.length)) := by
    intro hx
    rw [hAL] at hx
    exact absurd hx.1 (by simp)
  have hstep0 := processAudioChunk_voice_noprobe cfg stt st0 sessionId c0 t0
    hv0 hno0
  have hb0 : bufD st0 sessionId t0 = ⟨sessionId, [], 0, t0⟩ := by
    rw [bufD, hbuf]; rfl
  have hb1 : pushChunk ⟨sessionId, [], 0, t0⟩ c0 t0
      = ⟨sessionId, [c0], c0.length, t0⟩ := by
    simp [pushChunk]
  rw [hb0, hb1] at hstep0
  -- the voice phase
  have hVrun := runAudioTrace_voice cfg stt sessionId V
    ⟨mapSet st0.audioBuffers sessionId ⟨sessionId, [c0], c0.length, t0⟩,
      st0.sessionSettings⟩
    ⟨sessionId, [c0], c0.length, t0⟩ (mapSet_get_same _ _ _) hAL hV
  rw [mapSet_mapSet_same] at hVrun
  -- the state after the voice phase
  set T : Nat := V.foldl (fun _ p => p.2) t0 with hT
  set bV : AudioBuffer := ⟨sessionId, c0 :: V.map Prod.fst,
    c0.length + (V.map (fun p => p.1.length)).sum, T⟩ with hbV
  set stV : AudioProcessingState :=
    ⟨mapSet st0.audioBuffers sessionId bV, st0.sessionSettings⟩ with hstV
  -- the quiet silence phase, state unchanged
  have hlast : bV.lastChunkTime = T := rfl
  have hS1run := runAudioTrace_silence_quiet cfg stt sessionId S1 stV bV
    (mapSet_get_same _ _ _)
    (fun p hp => ⟨(hS1 p hp).1, by
      rw [hlast]
      have h2 := (hS1 p hp).2
      omega⟩)
  -- the boundary chunk
  have hgate : ¬ suppressGate stV sessionId tstar := by
    intro hg
    have h1 : (settingsOf st0 sessionId).alwaysListen = true := hg.1
    rw [hAL] at h1
    exact absurd h1 (by simp)
  have hbnd := processAudioChunk_boundary cfg stt stV sessionId cstar tstar
    bV (mapSet_get_same _ _ _) hvstar (by simp [hbV]) hsum
    (by rw [hlast]; omega)
  rw [if_neg hgate, htr] at hbnd
  -- the trailing silence phase from the cleared entry
  obtain ⟨stF, hS2run, hFempty⟩ := runAudioTrace_silence_empty cfg stt
    sessionId S2
    ⟨mapDel stV.audioBuffers sessionId,
      if (settingsOf stV sessionId).awake = true then
        mapSet stV.sessionSettings sessionId
          { settingsOf stV sessionId with awake := false }
      else stV.sessionSettings⟩
    (Or.inl (mapDel_get_same _ _)) hS2
  have hstarrun : runAudioTrace cfg stt sessionId stV
      ((cstar, tstar) :: S2)
      = .ok (⟨some (f bV.chunks.flatten), true⟩ ::
          S2.map (fun _ => ⟨none, false⟩), stF) := by
    simp only [runAudioTrace]
    rw [hbnd]
    dsimp only
    rw [hS2run]
  have h12 := runAudioTrace_append cfg stt sessionId S1
    ((cstar, tstar) :: S2) stV stV stF _ _ hS1run hstarrun
  have h012 := runAudioTrace_append cfg stt sessionId V
    (S1 ++ (cstar, tstar) :: S2) _ stV stF _ _ hVrun h12
  refine ⟨stF, ?_, hFempty, ?_, ?_, fun st => mapDel_get_same _ _⟩
  · simp only [runAudioTrace]
    rw [hstep0]
    dsimp only
    rw [h012]
    simp [List.map_append, List.append_assoc, hbV]
    rw [← List.append_assoc, ← List.replicate_add]
  · simp [List.countP_append, List.countP_cons, countP_map_nonfinal,
      countP_replicate_nonfinal]
  · intro st c now r st2 hALst h
    exact processAudioChunk_step_shape cfg stt f htr st sessionId c now r
      st2 hALst h

/-- Witness for C1 (amended): a two-chunk utterance followed by silence
yields non-final, non-final, non-final, final with the transcript, and
non-final, with the buffer entry gone or empty afterwards. -/
theorem endpointing_finality_witness :
    ∃ stF,
      runAudioTrace ⟨2, 4⟩ sttW "s" stC1W
          [([255, 127], 0), ([255, 127], 1), ([0, 0], 2), ([0, 0], 3),
            ([0, 0], 9)]
        = .ok ([⟨none, false⟩, ⟨none, false⟩, ⟨none, false⟩,
            ⟨some "t", true⟩, ⟨none, false⟩], stF) ∧
      emptyEntry stF "s" ∧
      (([(⟨none, false⟩ : ChunkResult), ⟨none, false⟩, ⟨none, false⟩,
          ⟨some "t", true⟩, ⟨none, false⟩]).countP
        (fun r => r.isFinal)) = 1 ∧
      (∀ (st : AudioProcessingState) (c : List Nat) (now : Nat)
          (r : ChunkResult) (st2 : AudioProcessingState),
        (settingsOf st "s").alwaysListen = false →
        processAudioChunk ⟨2, 4⟩ sttW st "s" c now = .ok (r, st2) →
        ((r.isFinal = true ↔ st2.audioBuffers "s" = none) ∧
          (st2.audioBuffers "s" = none ∨
            ∃ b2, st2.audioBuffers "s" = some b2 ∧
              (b2.chunks = (bufD st "s" now).chunks ++ [c] ∨
               b2.chunks = (bufD st "s" now).chunks)))) ∧
      (∀ st : AudioProcessingState,
        (cleanup st "s").audioBuffers "s" = none) :=
  endpointing_finality ⟨2, 4⟩ sttW (fun _ => "t") rfl (by decide) stC1W "s"
    rfl rfl [255, 127] 0 [([255, 127], 1)] [([0, 0], 2)] [([0, 0], 9)]
    [0, 0] 3 (by decide) (by decide) (by decide) (by decide) (by decide)
    (by decide) (by decide)

theorem energySum_replicate_max (n : Nat) :
    energySum ((List.replicate n ([255, 127] : List Nat)).flatten)
      = n * 32767 ^ 2 := by
  induction n with
  | zero => rfl
  | succ n ih =>
    rw [List.replicate_succ, List.flatten_cons]
    have hstep : energySum (255 :: 127 ::
        (List.replicate n ([255, 127] : List Nat)).flatten)
        = readInt16LE 255 127 ^ 2 +
          energySum ((List.replicate n ([255, 127] : List Nat)).flatten) :=
      rfl
    rw [show ([255, 127] : List Nat) ++
        (List.replicate n ([255, 127] : List Nat)).flatten
        = 255 :: 127 ::
          (List.replicate n ([255, 127] : List Nat)).flatten from rfl]
    rw [hstep, ih, show readInt16LE 255 127 = 32767 from rfl]
    push_cast
    ring

theorem voiceBytes8000_length : voiceBytes8000.length = 8000 := by
  rw [voiceBytes8000, List.length_flatten, List.map_replicate,
    List.sum_replicate, smul_eq_mul]
  rfl

theorem voiceBytes8000_voice : detectVoiceActivity voiceBytes8000 = true := by
  have hE : energySum voiceBytes8000 = 4000 * 32767 ^ 2 :=
    energySum_replicate_max 4000
  have hL : voiceBytes8000.length = 8000 := voiceBytes8000_length
  unfold detectVoiceActivity
  rw [if_neg (by rw [hL]; norm_num), decide_eq_true_eq, hE, hL]
  norm_num

/-- Counterexample to C1 as stated: with the default config (silence
threshold 1500 ms, minimum utterance 8000 bytes), a session in always-listen
mode that never hears a wake word receives a voice-active chunk of exactly
8000 bytes and then a silence chunk a full 1500 ms later — the claimed
hypotheses hold — yet no call returns a final result (both are non-final:
the boundary is suppressed), and the buffer entry is nevertheless removed. -/
theorem endpointing_zero_finals_always_listen :
    detectVoiceActivity voiceBytes8000 = true ∧
    voiceBytes8000.length = 8000 ∧
    detectVoiceActivity [0, 0] = false ∧
    (defaultConfig none none).minAudioLengthBytes = 8000 ∧
    (defaultConfig none none).silenceThresholdMs = 1500 ∧
    traceResults (runAudioTrace (defaultConfig none none) sttW "s" stCE
        [(voiceBytes8000, 0), ([0, 0], 1500)])
      = [⟨none, false⟩, ⟨none, false⟩] ∧
    traceBuffer (runAudioTrace (defaultConfig none none) sttW "s" stCE
        [(voiceBytes8000, 0), ([0, 0], 1500)]) "s" = none := by
  have hstep1 := processAudioChunk_voice_nodetect (defaultConfig none none)
    sttW stCE "s" voiceBytes8000 0 voiceBytes8000_voice rfl
  have hb1 : pushChunk (bufD stCE "s" 0) voiceBytes8000 0
      = ⟨"s", [voiceBytes8000], voiceBytes8000.length, 0⟩ := by
    simp [pushChunk, bufD, stCE]
  rw [hb1] at hstep1
  have hb1get : (⟨mapSet stCE.audioBuffers "s"
      ⟨"s", [voiceBytes8000], voiceBytes8000.length, 0⟩,
      stCE.sessionSettings⟩ : AudioProcessingState).audioBuffers "s"
      = some ⟨"s", [voiceBytes8000], voiceBytes8000.length, 0⟩ :=
    mapSet_get_same stCE.audioBuffers "s"
      ⟨"s", [voiceBytes8000], voiceBytes8000.length, 0⟩
  have hgate : suppressGate ⟨mapSet stCE.audioBuffers "s"
      ⟨"s", [voiceBytes8000], voiceBytes8000.length, 0⟩,
      stCE.sessionSettings⟩ "s" 1500 := ⟨rfl, rfl, by simp [settingsOf, stCE]⟩
  have hstep2 := processAudioChunk_boundary (defaultConfig none none) sttW
    ⟨mapSet stCE.audioBuffers "s"
      ⟨"s", [voiceBytes8000], voiceBytes8000.length, 0⟩,
      stCE.sessionSettings⟩ "s" [0, 0] 1500
    ⟨"s", [voiceBytes8000], voiceBytes8000.length, 0⟩ hb1get (by decide)
    (by simp)
    (by rw [show (⟨"s", [voiceBytes8000], voiceBytes8000.length, 0⟩ :
        AudioBuffer).totalBytes = voiceBytes8000.length from rfl,
        voiceBytes8000_length]
        decide)
    (by decide)
  rw [if_pos hgate] at hstep2
  have htrace : runAudioTrace (defaultConfig none none) sttW "s" stCE
      [(voiceBytes8000, 0), ([0, 0], 1500)]
      = .ok ([⟨none, false⟩, ⟨none, false⟩],
        ⟨mapDel (mapSet stCE.audioBuffers "s"
          ⟨"s", [voiceBytes8000], voiceBytes8000.length, 0⟩) "s",
          stCE.sessionSettings⟩) := by
    simp only [runAudioTrace]
    rw [hstep1]
    dsimp only
    rw [hstep2]
  refine ⟨voiceBytes8000_voice, voiceBytes8000_length, by decide, rfl, rfl,
    ?_, ?_⟩
  · rw [htrace]
    rfl
  · rw [htrace]
    exact mapDel_get_same (mapSet stCE.audioBuffers "s"
      ⟨"s", [voiceBytes8000], voiceBytes8000.length, 0⟩) "s"

end Eleni
